import Mathlib

/-!
# Trade journal analytics engine — a shallow embedding

This file embeds the analytics core of a trading-journal application
(`app.py`, `database.py`) in Lean 4 and proves properties of it.

Modelling conventions:
* Python/pandas `float64` values are modelled as rationals (`ℚ`).
  The two non-finite float values that the code can actually produce
  (`inf` and `nan`, from the unguarded division `Reward / Risk`) are
  modelled explicitly by the three-valued type `RRVal`.
* pandas column operations (`apply`, `cumsum`, `cummax`, `.min()`,
  elementwise arithmetic) become list operations, one list entry per
  DataFrame row, in row order.
* The SQLite table `trades` becomes a list of `DBTrade` records in
  insertion (creation) order; `AUTOINCREMENT`/`created_at` ordering is
  the list order.
-/

/-- A stored trade, as selected by
`SELECT * FROM trades WHERE username = ?` — the fields the analytics in
`app.py` read.  `direction` is the raw stored string (`"Buy"`/`"Sell"`
from the manual form, or the capitalized CSV value). -/
structure Trade where
  pair : String
  direction : String
  entry : ℚ
  stoploss : ℚ
  takeprofit : ℚ
  lot : ℚ
deriving Repr, DecidableEq

/-- `df["PnL"]` (app.py lines 172–178):
`(takeprofit - entry) * lot` if `direction == "Buy"`,
else `(entry - takeprofit) * lot`. -/
def pnl (t : Trade) : ℚ :=
  if t.direction = "Buy" then (t.takeprofit - t.entry) * t.lot
  else (t.entry - t.takeprofit) * t.lot

/-- `df["Risk"]` (app.py line 180): `|entry - stoploss| * lot`. -/
def risk (t : Trade) : ℚ := |t.entry - t.stoploss| * t.lot

/-- `df["Reward"]` (app.py line 181): `|takeprofit - entry| * lot`. -/
def reward (t : Trade) : ℚ := |t.takeprofit - t.entry| * t.lot

/-- Round half to even at the last kept digit, the rounding used by
pandas `.round`. -/
def roundHalfEven (x : ℚ) : ℤ :=
  let f : ℤ := ⌊x⌋
  let r : ℚ := x - f
  if r < 1/2 then f
  else if 1/2 < r then f + 1
  else if f % 2 = 0 then f else f + 1

/-- `.round(2)`: round to two decimal places. -/
def round2 (x : ℚ) : ℚ := (roundHalfEven (x * 100) : ℚ) / 100

/-- Value of an entry of the `RR` column.  In `float64` arithmetic the
unguarded quotient `Reward / Risk` is finite exactly when `Risk ≠ 0`;
`Risk = 0` gives `inf` (reward ≠ 0) or `nan` (0/0), and `.round(2)`
preserves both. -/
inductive RRVal where
  | fin : ℚ → RRVal
  | inf : RRVal
  | nan : RRVal
deriving Repr, DecidableEq

/-- `df["RR"]` (app.py line 182): `(Reward / Risk).round(2)`, with no
guard on `Risk = 0` — float division by zero yields `inf`/`nan`. -/
def rr (t : Trade) : RRVal :=
  if risk t = 0 then
    if reward t = 0 then RRVal.nan else RRVal.inf
  else RRVal.fin (round2 (reward t / risk t))

example : pnl ⟨"EURUSD", "Buy", 11/10, 1, 111/100, 1⟩ = 1/100 := by
  norm_num [pnl]
example : rr ⟨"EURUSD", "Buy", 11/10, 1, 6/5, 1⟩ = RRVal.fin 1 := by
  norm_num [rr, risk, reward, round2, roundHalfEven]
example : rr ⟨"EURUSD", "Buy", 1, 1, 2, 1⟩ = RRVal.inf := by
  norm_num [rr, risk, reward]

/-! ## Portfolio aggregation (app.py lines 184–199)

`df["Equity"] = df["PnL"].cumsum()`,
`df["Peak"] = df["Equity"].cummax()`,
`df["Drawdown"] = df["Equity"] - df["Peak"]`,
and the Dashboard metrics on lines 194–199. -/

/-- Running cumulative sum with accumulator: the tail of pandas
`cumsum` starting from partial sum `acc`. -/
def cumsumGo (acc : ℚ) : List ℚ → List ℚ
  | [] => []
  | x :: xs => (acc + x) :: cumsumGo (acc + x) xs

/-- pandas `Series.cumsum`. -/
def cumsum (l : List ℚ) : List ℚ := cumsumGo 0 l

/-- Running maximum: `m` is the maximum seen so far (already an emitted
element), and each further element raises it. -/
def cummaxGo (m : ℚ) : List ℚ → List ℚ
  | [] => [m]
  | y :: ys => m :: cummaxGo (max m y) ys

/-- pandas `Series.cummax`. -/
def cummax : List ℚ → List ℚ
  | [] => []
  | x :: xs => cummaxGo x xs

/-- `Series.min`: `none` on an empty series (pandas gives `nan`). -/
def listMin : List ℚ → Option ℚ
  | [] => none
  | x :: xs => some (xs.foldl min x)

/-- The `Equity` column: cumulative sum of `PnL` in row order. -/
def equitySeries (ts : List Trade) : List ℚ := cumsum (ts.map pnl)

/-- The `Peak` column: running maximum of `Equity`. -/
def peakSeries (ts : List Trade) : List ℚ := cummax (equitySeries ts)

/-- The `Drawdown` column: `Equity - Peak`, elementwise. -/
def drawdownSeries (ts : List Trade) : List ℚ :=
  (equitySeries ts).zipWith (· - ·) (peakSeries ts)

/-- `df["RR"].mean()` under pandas semantics: `nan` entries are
skipped (`skipna=True`); an `inf` among the remaining entries makes the
mean `inf`; the mean of no remaining entries is `nan`. -/
def rrMean (l : List RRVal) : RRVal :=
  let fins := l.filterMap (fun v => match v with | RRVal.fin q => some q | _ => none)
  if l.contains RRVal.inf then RRVal.inf
  else if fins.isEmpty then RRVal.nan
  else RRVal.fin (fins.sum / fins.length)

/-- The five Dashboard metrics (app.py lines 194–199), at full
precision; the `round(..., 2)` on lines 196–199 is display formatting
inside `st.metric` and is kept out of the aggregate itself. -/
structure Summary where
  count : ℕ
  winRate : ℚ
  avgRR : RRVal
  maxDrawdown : Option ℚ
  netPnL : ℚ
deriving Repr, DecidableEq

/-- The Dashboard summary:
`count = len(df)`; `winRate = (df["PnL"] > 0).mean() * 100`;
`avgRR = df["RR"].mean()`; `maxDrawdown = df["Drawdown"].min()`;
`netPnL = df["PnL"].sum()`. -/
def perfSummary (ts : List Trade) : Summary where
  count := ts.length
  winRate := if ts.length = 0 then 0
    else ((ts.filter (fun t => 0 < pnl t)).length : ℚ) / ts.length * 100
  avgRR := rrMean (ts.map rr)
  maxDrawdown := listMin (drawdownSeries ts)
  netPnL := (ts.map pnl).sum

/-- The equity/peak/drawdown columns packaged as the series handed to
the charts. -/
structure EquitySeries where
  equity : List ℚ
  peak : List ℚ
  drawdown : List ℚ
deriving Repr, DecidableEq

/-- The analytics pipeline as run on a loaded trade set (app.py lines
165–199): `if df.empty: st.stop()` exits before any calculation, so an
empty input produces no output at all; otherwise the derived columns
and the Dashboard summary are computed. -/
def computePerformance (ts : List Trade) : Option (EquitySeries × Summary) :=
  if ts.isEmpty then none
  else some (⟨equitySeries ts, peakSeries ts, drawdownSeries ts⟩, perfSummary ts)

/-! ## CSV ingestion (app.py lines 87–118)

Each CSV row is converted inside a `try`: `str(...)` for pair and
direction (never fails), `float(...)` for entry and lot, and
`float(...) if pd.notna(...) else 0` for stoploss and takeprofit.  Any
exception skips the row; otherwise the row is INSERTed and counted. -/

/-- A numeric CSV cell converted unconditionally by `float(...)`:
either the conversion raises (`bad`, e.g. a non-numeric string), or it
yields a finite value (`val`).  Present cells that convert to the
non-finite floats `nan`/`inf` (an NA cell, or an `"inf"`/`"nan"`
spelling — which `float` accepts without raising) cannot be carried
into the rational-valued analytics columns and are outside this
embedding's domain. -/
inductive NumCell where
  | bad : NumCell
  | val : ℚ → NumCell
deriving Repr, DecidableEq

/-- A numeric CSV cell guarded by `pd.notna`: additionally to the
`NumCell` outcomes it may be NA (`na`). -/
inductive CsvCell where
  | na : CsvCell
  | bad : CsvCell
  | val : ℚ → CsvCell
deriving Repr, DecidableEq

/-- `float(cell)` (app.py lines 103 and 106): `none` when the
conversion raises. -/
def cellFloat : NumCell → Option ℚ
  | NumCell.bad => none
  | NumCell.val q => some q

/-- `float(cell) if pd.notna(cell) else 0` (app.py lines 104–105). -/
def cellFloatOrZero : CsvCell → Option ℚ
  | CsvCell.na => some 0
  | CsvCell.bad => none
  | CsvCell.val q => some q

/-- One raw CSV row, after the user's column mapping has selected the
pair/direction/entry/stoploss/takeprofit/lot cells. -/
structure RawRow where
  pair : String
  direction : String
  entry : NumCell
  stoploss : CsvCell
  takeprofit : CsvCell
  lot : NumCell
deriving Repr, DecidableEq

/-- Python `str.capitalize()`: first character uppercased, the rest
lowercased (ASCII model of the unicode operation; the app's direction
values are ASCII). -/
def pyCapitalize (s : String) : String :=
  match s.toList with
  | [] => ""
  | c :: cs => String.mk (c.toUpper :: cs.map Char.toLower)

/-- The body of the import loop's `try` block (app.py lines 92–108):
build the tuple to INSERT.  `none` when one of the `float(...)` calls
raises, in which case the row is skipped.  The direction is stored as
`str(value).capitalize()` — with no membership check against
Buy/Sell. -/
def convRow (row : RawRow) : Option Trade :=
  match cellFloat row.entry, cellFloatOrZero row.stoploss,
      cellFloatOrZero row.takeprofit, cellFloat row.lot with
  | some e, some s, some tp, some l =>
      some ⟨row.pair, pyCapitalize row.direction, e, s, tp, l⟩
  | _, _, _, _ => none

/-- The import loop (app.py lines 89–111): successful rows are
INSERTed in input order and counted in `imported`; a row whose
conversion raises is counted in `skipped` and the loop continues. -/
def importBatch : List RawRow → List Trade × ℕ × ℕ
  | [] => ([], 0, 0)
  | row :: rest =>
      let (ts, imported, skipped) := importBatch rest
      match convRow row with
      | some t => (t :: ts, imported + 1, skipped)
      | none => (ts, imported, skipped + 1)

/-! ## Stored rows and the review update (database.py) -/

/-- A full row of the `trades` table (database.py lines 19–37). -/
structure DBTrade where
  id : ℕ
  username : String
  pair : String
  direction : String
  entry : ℚ
  stoploss : ℚ
  takeprofit : ℚ
  lot : ℚ
  screenshot : Option String
  notes : Option String
  created_at : ℕ
deriving Repr, DecidableEq

/-- `UPDATE trades SET screenshot = ?, notes = ? WHERE id = ?`
(database.py lines 83–94, and the identical statement in app.py lines
236–239): every row whose `id` matches gets the new screenshot path
and notes; all other rows are untouched. -/
def update_trade_review (db : List DBTrade) (trade_id : ℕ)
    (screenshot_path notes : String) : List DBTrade :=
  db.map fun r =>
    if r.id = trade_id then
      { r with screenshot := some screenshot_path, notes := some notes }
    else r

/-- The calculation-relevant fields of a stored row: everything except
the `screenshot`/`notes` metadata. -/
def coreFields (r : DBTrade) : ℕ × String × String × String × ℚ × ℚ × ℚ × ℚ × ℕ :=
  (r.id, r.username, r.pair, r.direction, r.entry, r.stoploss,
    r.takeprofit, r.lot, r.created_at)

/-! ## Group Aggregator

No per-instrument grouping code exists in the repository sources at
hand (the Analytics page only charts the portfolio-wide drawdown), so
the Group Aggregator is modelled from the specification text. -/

/-- Modelled from the spec: the 4.1 `riskRewardRatio` with its defined
sentinel — `round(reward / risk, 2)` when `risk > 0`, else `0`. -/
def specRR (t : Trade) : ℚ :=
  if risk t = 0 then 0 else round2 (reward t / risk t)

/-- Modelled from the spec: the 4.2/4.3 per-partition summary fields —
count, winRate, avgRR, netPnL (equity/drawdown are portfolio-wide
only). -/
structure SpecSummary where
  count : ℕ
  winRate : ℚ
  avgRR : ℚ
  netPnL : ℚ
deriving Repr, DecidableEq

/-- Modelled from the spec: the 4.2 summary computation —
`count = n`; `winRate = 100 × (#records with pnl > 0) / n` (0 if n=0);
`avgRR = mean of RR` (0 if n=0); `netPnL = sum of pnl`. -/
def specSummary (ts : List Trade) : SpecSummary where
  count := ts.length
  winRate := if ts.length = 0 then 0
    else 100 * ((ts.filter (fun t => 0 < pnl t)).length : ℚ) / ts.length
  avgRR := if ts.length = 0 then 0 else (ts.map specRR).sum / ts.length
  netPnL := (ts.map pnl).sum

/-- Modelled from the spec: the distinct `instrument` keys of a trade
sequence, stably ordered by first occurrence; `seen` accumulates the
keys already emitted. -/
def instrumentsAux (seen : List String) : List Trade → List String
  | [] => []
  | t :: ts =>
      if t.pair ∈ seen then instrumentsAux seen ts
      else t.pair :: instrumentsAux (t.pair :: seen) ts

/-- Modelled from the spec: the distinct `instrument` keys of a trade
sequence, stably ordered by first occurrence. -/
def instrumentsOf (ts : List Trade) : List String := instrumentsAux [] ts

/-- Modelled from the spec: `computeGroupBreakdown` — partition the
sequence by `instrument` and run the 4.2 summary computation on each
partition independently. -/
def computeGroupBreakdown (ts : List Trade) : List (String × SpecSummary) :=
  (instrumentsOf ts).map fun k => (k, specSummary (ts.filter (fun t => t.pair = k)))

/-! ## Claims -/

/-- C1 (counterexample): a trade with `entry = stoploss` has zero risk,
yet its RR is the float `inf` (an undefined/non-finite value), not the
sentinel `0` the claim requires. -/
theorem rr_zero_risk_not_sentinel :
    risk ⟨"EURUSD", "Buy", 1, 1, 2, 1⟩ = 0 ∧
    rr ⟨"EURUSD", "Buy", 1, 1, 2, 1⟩ = RRVal.inf ∧
    rr ⟨"EURUSD", "Buy", 1, 1, 2, 1⟩ ≠ RRVal.fin 0 := by
  refine ⟨by norm_num [risk], by norm_num [rr, risk, reward], ?_⟩
  norm_num [rr, risk, reward]
  decide

/-- C1 (amended): when `risk ≠ 0` the RR is `round(reward / risk, 2)`
as the claim states, but when `risk = 0` the unguarded division
produces the non-finite float `inf` (reward nonzero) or `nan` (reward
zero) rather than the sentinel `0`. -/
theorem riskRewardRatio_cases (t : Trade) :
    (risk t ≠ 0 → rr t = RRVal.fin (round2 (reward t / risk t))) ∧
    (risk t = 0 → reward t ≠ 0 → rr t = RRVal.inf) ∧
    (risk t = 0 → reward t = 0 → rr t = RRVal.nan) := by
  refine ⟨fun h => ?_, fun h h2 => ?_, fun h h2 => ?_⟩
  · simp [rr, h]
  · simp [rr, h, h2]
  · simp [rr, h, h2]

/-- C1 (witness for `riskRewardRatio_cases`). -/
theorem riskRewardRatio_cases_witness :
    rr ⟨"EURUSD", "Buy", 2, 1, 4, 1⟩ =
      RRVal.fin (round2 (reward ⟨"EURUSD", "Buy", 2, 1, 4, 1⟩ /
        risk ⟨"EURUSD", "Buy", 2, 1, 4, 1⟩)) ∧
    rr ⟨"GBPUSD", "Sell", 1, 1, 2, 1⟩ = RRVal.inf ∧
    rr ⟨"USDJPY", "Buy", 1, 1, 1, 1⟩ = RRVal.nan :=
  ⟨(riskRewardRatio_cases _).1 (by norm_num [risk]),
   (riskRewardRatio_cases _).2.1 (by norm_num [risk]) (by norm_num [reward]),
   (riskRewardRatio_cases _).2.2 (by norm_num [risk]) (by norm_num [reward])⟩

/-- C3: a trade whose stored direction is `"Buy"` (Long) gets
`pnl = (takeprofit - entry) * lot`, and one whose stored direction is
`"Sell"` (Short) gets `pnl = (entry - takeprofit) * lot`. -/
theorem pnl_long_short (t : Trade) :
    (t.direction = "Buy" → pnl t = (t.takeprofit - t.entry) * t.lot) ∧
    (t.direction = "Sell" → pnl t = (t.entry - t.takeprofit) * t.lot) := by
  constructor <;> intro h <;> simp [pnl, h]

/-- C3 (witness for `pnl_long_short`). -/
theorem pnl_long_short_witness :
    pnl ⟨"EURUSD", "Buy", 11/10, 1, 111/100, 1⟩ = (111/100 - 11/10) * 1 ∧
    pnl ⟨"GBPUSD", "Sell", 5/4, 1, 31/25, 1⟩ = (5/4 - 31/25) * 1 :=
  ⟨(pnl_long_short _).1 rfl, (pnl_long_short _).2 rfl⟩

/-- C10: the Long formula is used exactly when the stored direction
string equals `"Buy"`; every other stored value — `"Sell"`, but also
any unrecognized string — falls to the `else` branch and gets the
Short formula. -/
theorem pnl_buy_branch (t : Trade) :
    (t.direction = "Buy" → pnl t = (t.takeprofit - t.entry) * t.lot) ∧
    (t.direction ≠ "Buy" → pnl t = (t.entry - t.takeprofit) * t.lot) := by
  constructor <;> intro h <;> simp [pnl, h]

/-- C10 (witness for `pnl_buy_branch`): an unrecognized direction
(`"Hold"`) receives the Short formula. -/
theorem pnl_buy_branch_witness :
    pnl ⟨"EURUSD", "Hold", 3, 1, 2, 1⟩ = (3 - 2) * 1 :=
  (pnl_buy_branch _).2 (by decide)

/-- C5 (counterexample): a CSV row whose direction value is `"hold"` —
not a casing of Buy or Sell — is not rejected: it is imported with the
capitalized string `"Hold"` stored as its direction. -/
theorem convRow_accepts_unknown_direction :
    convRow ⟨"EURUSD", "hold", NumCell.val 1, CsvCell.val 2,
      CsvCell.val 3, NumCell.val 1⟩ = some ⟨"EURUSD", "Hold", 1, 2, 3, 1⟩ ∧
    ("Hold" : String) ≠ "Buy" ∧ ("Hold" : String) ≠ "Sell" := by
  refine ⟨rfl, by decide, by decide⟩

/-- C5 (amended): ingestion transforms the direction by Python
`capitalize` (so any letter-casing of buy/sell becomes `"Buy"`/
`"Sell"`), but performs no membership check: the direction value never
causes a validation failure, and whatever string results from
capitalization is stored. -/
theorem convRow_direction_capitalized (row : RawRow) (t : Trade)
    (h : convRow row = some t) :
    t.direction = pyCapitalize row.direction ∧
    ∀ d' : String, convRow { row with direction := d' } =
      some { t with direction := pyCapitalize d' } := by
  rcases row with ⟨pair, d, entry, sl, tp, lot⟩
  cases entry <;> cases sl <;> cases tp <;> cases lot <;>
    simp_all [convRow, cellFloat, cellFloatOrZero] <;>
    simp [← h]

/-- C5 (witness for `convRow_direction_capitalized`): a row accepted
with direction `"bUY"` stores `pyCapitalize "bUY" = "Buy"`. -/
theorem convRow_direction_capitalized_witness :
    Trade.direction ⟨"EURUSD", "Buy", 1, 0, 0, 1⟩ = pyCapitalize "bUY" :=
  (convRow_direction_capitalized
    ⟨"EURUSD", "bUY", NumCell.val 1, CsvCell.na, CsvCell.na, NumCell.val 1⟩
    _ rfl).1

/-- C6 (counterexample): a CSV row with `lot = 0` passes every check
the import loop makes (all four `float(...)` conversions succeed) and
is accepted, so an accepted record need not have positive position
size. -/
theorem convRow_accepts_zero_lot :
    convRow ⟨"EURUSD", "Buy", NumCell.val 1, CsvCell.val 2,
      CsvCell.val 3, NumCell.val 0⟩ = some ⟨"EURUSD", "Buy", 1, 2, 3, 0⟩ ∧
    ¬ (0 : ℚ) > 0 := ⟨rfl, by norm_num⟩

/-- C6 (amended): a CSV row is a validation failure exactly when one
of the four `float(...)` conversions raises (entry, lot, or a present
but unparseable stoploss/takeprofit); no positivity check is applied
to the position size, so a row with `lot ≤ 0` is accepted (only the
manual-entry form separately enforces `lot ≥ 0.01` in its widget). -/
theorem convRow_skip_iff (row : RawRow) :
    convRow row = none ↔
      (row.entry = NumCell.bad ∨ row.lot = NumCell.bad ∨
       row.stoploss = CsvCell.bad ∨ row.takeprofit = CsvCell.bad) := by
  rcases row with ⟨pair, d, entry, sl, tp, lot⟩
  cases entry <;> cases sl <;> cases tp <;> cases lot <;>
    simp [convRow, cellFloat, cellFloatOrZero]

/-- C2 (counterexample): on an empty trade set the pipeline does not
return an empty series together with an all-zero summary — it stops
before computing anything. -/
theorem computePerformance_empty_not_zero_summary :
    computePerformance [] ≠
      some (⟨[], [], []⟩, ⟨0, 0, RRVal.fin 0, some 0, 0⟩) := by
  simp [computePerformance]

/-- C2 (amended): on the empty input the pipeline exits early
(`st.stop()` behind an informational message) and produces no series
and no summary at all; it never raises an error — but it does not
return an all-zero `PerformanceSummary` either. -/
theorem computePerformance_empty_eq_none : computePerformance [] = none := rfl

/-- C7: over any batch of rows, `imported + skipped` equals the number
of candidate rows, `imported` is exactly the number of rows minus the
number failing conversion (one row's failure only increments `skipped`
and never stops the loop), and the accepted records are exactly the
successfully converted rows in input order. -/
theorem importBatch_counts (rows : List RawRow) :
    (importBatch rows).2.1 + (importBatch rows).2.2 = rows.length ∧
    (importBatch rows).2.1 =
      rows.length - (rows.filter (fun r => (convRow r).isNone)).length ∧
    (importBatch rows).1 = rows.filterMap convRow := by
  induction rows with
  | nil => exact ⟨rfl, rfl, rfl⟩
  | cons row rest ih =>
    obtain ⟨h1, h2, h3⟩ := ih
    have hK : (rest.filter (fun r => (convRow r).isNone)).length ≤ rest.length :=
      List.length_filter_le _ _
    rcases hbr : importBatch rest with ⟨ts, imported, skipped⟩
    rw [hbr] at h1 h2 h3
    dsimp only at h1 h2 h3
    cases hc : convRow row with
    | some t =>
      refine ⟨?_, ?_, ?_⟩ <;>
        simp only [importBatch, hbr, hc, List.filter_cons, List.filterMap_cons,
          List.length_cons, Option.isNone_some, Bool.false_eq_true, if_false,
          cond_false] <;>
        simp_all <;> omega
    | none =>
      refine ⟨?_, ?_, ?_⟩
      · simp only [importBatch, hbr, hc, List.length_cons]
        omega
      · simp only [importBatch, hbr, hc, List.filter_cons, List.length_cons,
          Option.isNone_none, if_true, cond_true]
        omega
      · simp only [importBatch, hbr, hc, List.filterMap_cons]
        exact h3

/-- The last entry of a running cumulative sum started at `acc` is
`acc` plus the total sum. -/
theorem cumsumGo_getLast (acc x : ℚ) (xs : List ℚ) :
    (cumsumGo acc (x :: xs)).getLast? = some (acc + (x :: xs).sum) := by
  induction xs generalizing acc x with
  | nil => simp [cumsumGo]
  | cons y ys ih =>
    show ((acc + x) :: (acc + x + y) :: cumsumGo (acc + x + y) ys).getLast? = _
    rw [List.getLast?_cons_cons]
    show (cumsumGo (acc + x) (y :: ys)).getLast? = _
    rw [ih]
    simp only [List.sum_cons, Option.some.injEq]
    ring

/-- Every entry of `Equity - Peak` is nonpositive once the head bound
`y ≤ m` holds: the running maximum dominates the running value. -/
theorem zipWith_sub_cummaxGo_nonpos (ys : List ℚ) :
    ∀ y m : ℚ, y ≤ m →
      ∀ d ∈ List.zipWith (· - ·) (y :: ys) (cummaxGo m ys), d ≤ 0 := by
  induction ys with
  | nil =>
    intro y m hym d hd
    simp only [cummaxGo, List.zipWith_cons_cons, List.zipWith_nil_right,
      List.mem_singleton] at hd
    subst hd
    linarith
  | cons z zs ih =>
    intro y m hym d hd
    rw [show cummaxGo m (z :: zs) = m :: cummaxGo (max m z) zs from rfl] at hd
    rw [List.zipWith_cons_cons] at hd
    rcases List.mem_cons.mp hd with rfl | hd
    · linarith
    · exact ih z (max m z) (le_max_right m z) d hd

/-- A running maximum over an already non-decreasing list is the list
itself. -/
theorem cummaxGo_of_chain (l : List ℚ) :
    ∀ m : ℚ, List.Chain (· ≤ ·) m l → cummaxGo m l = m :: l := by
  induction l with
  | nil => intro m _; rfl
  | cons y ys ih =>
    intro m h
    rcases h with _ | ⟨hmy, hys⟩
    rw [show cummaxGo m (y :: ys) = m :: cummaxGo (max m y) ys from rfl]
    rw [max_eq_right hmy, ih y hys]

/-- The minimum of a list of zeros (pattern `map (fun _ => 0)`) is
zero. -/
theorem foldl_min_map_zero (l : List ℚ) :
    (l.map (fun _ => (0 : ℚ))).foldl min 0 = 0 := by
  induction l with
  | nil => rfl
  | cons a as ih => simp only [List.map_cons, List.foldl_cons, min_self, ih]

/-- C4: for a non-empty trade sequence, the last equity point is the
total PnL, every drawdown entry is ≤ 0, the summary's max-drawdown
metric is the minimum of the drawdown column, and it is 0 whenever the
equity curve is non-decreasing. -/
theorem equity_drawdown_invariants (ts : List Trade) (h : ts ≠ []) :
    (equitySeries ts).getLast? = some ((ts.map pnl).sum) ∧
    (∀ d ∈ drawdownSeries ts, d ≤ 0) ∧
    (perfSummary ts).maxDrawdown = listMin (drawdownSeries ts) ∧
    (List.Chain' (· ≤ ·) (equitySeries ts) →
      (perfSummary ts).maxDrawdown = some 0) := by
  refine ⟨?_, ?_, rfl, ?_⟩
  · cases ts with
    | nil => exact absurd rfl h
    | cons t ts' =>
      show (cumsumGo 0 (pnl t :: ts'.map pnl)).getLast? = _
      rw [cumsumGo_getLast, zero_add, List.map_cons]
  · intro d hd
    rw [show drawdownSeries ts =
        (equitySeries ts).zipWith (· - ·) (cummax (equitySeries ts)) from rfl] at hd
    rcases he : equitySeries ts with _ | ⟨x, xs⟩
    · rw [he] at hd; simp at hd
    · rw [he] at hd
      exact zipWith_sub_cummaxGo_nonpos xs x x le_rfl d hd
  · intro hch
    show listMin (drawdownSeries ts) = some 0
    have hne : equitySeries ts ≠ [] := by
      cases ts with
      | nil => exact absurd rfl h
      | cons t ts' => exact fun hx => List.noConfusion hx
    rcases he : equitySeries ts with _ | ⟨x, xs⟩
    · exact absurd he hne
    · rw [he] at hch
      have hcm : cummax (x :: xs) = x :: xs := cummaxGo_of_chain xs x hch
      rw [show drawdownSeries ts =
          (equitySeries ts).zipWith (· - ·) (cummax (equitySeries ts)) from rfl,
        he, hcm]
      have hz : List.zipWith (· - ·) (x :: xs) (x :: xs) =
          (x :: xs).map (fun _ => (0 : ℚ)) := by
        clear hch hcm he hne
        induction xs generalizing x with
        | nil => simp
        | cons y ys ihy => simp_all
      rw [hz]
      show some ((xs.map fun _ => (0 : ℚ)).foldl min (min 0 0)) = some 0
      rw [min_self, foldl_min_map_zero]

/-- C4 (witness for `equity_drawdown_invariants`). -/
theorem equity_drawdown_invariants_witness :
    (∀ d ∈ drawdownSeries
        [⟨"EURUSD", "Buy", 1, 0, 2, 1⟩, ⟨"GBPUSD", "Buy", 1, 0, 3, 1⟩], d ≤ 0) ∧
    (perfSummary
        [⟨"EURUSD", "Buy", 1, 0, 2, 1⟩, ⟨"GBPUSD", "Buy", 1, 0, 3, 1⟩]).maxDrawdown
      = some 0 :=
  ⟨(equity_drawdown_invariants _ (by simp)).2.1,
   (equity_drawdown_invariants _ (by simp)).2.2.2 (by
      norm_num [equitySeries, cumsum, cumsumGo, pnl])⟩

/-- C9: updating a trade's review metadata rewrites only the
`screenshot` and `notes` columns of the rows whose `id` matches: the
calculation-relevant fields of every row are unchanged, a row with a
different `id` is entirely unchanged, and the matching row's other
fields are carried over as-is. -/
theorem update_trade_review_frame (db : List DBTrade) (tid : ℕ)
    (p n : String) :
    (update_trade_review db tid p n).map coreFields = db.map coreFields ∧
    ∀ i : ℕ, ∀ r : DBTrade, db[i]? = some r →
      (r.id ≠ tid → (update_trade_review db tid p n)[i]? = some r) ∧
      (r.id = tid → (update_trade_review db tid p n)[i]? =
        some { r with screenshot := some p, notes := some n }) := by
  constructor
  · simp only [update_trade_review, List.map_map]
    apply List.map_congr_left
    intro r _
    by_cases h : r.id = tid <;> simp [Function.comp, h, coreFields]
  · intro i r hr
    refine ⟨fun h => ?_, fun h => ?_⟩ <;>
      simp [update_trade_review, List.getElem?_map, hr, h]

/-- C9 (witness for `update_trade_review_frame`): updating trade 1
leaves the row with id 2 untouched. -/
theorem update_trade_review_frame_witness :
    (update_trade_review
      [⟨1, "alice", "EURUSD", "Buy", 1, 0, 2, 1, none, none, 10⟩,
       ⟨2, "alice", "GBPUSD", "Sell", 1, 0, 2, 1, none, none, 11⟩]
      1 "uploads/screenshots/a.png" "note")[1]? =
      some ⟨2, "alice", "GBPUSD", "Sell", 1, 0, 2, 1, none, none, 11⟩ :=
  ((update_trade_review_frame
      [⟨1, "alice", "EURUSD", "Buy", 1, 0, 2, 1, none, none, 10⟩,
       ⟨2, "alice", "GBPUSD", "Sell", 1, 0, 2, 1, none, none, 11⟩]
      1 "uploads/screenshots/a.png" "note").2 1
      ⟨2, "alice", "GBPUSD", "Sell", 1, 0, 2, 1, none, none, 11⟩ rfl).1
    (by decide)

/-- C8: every entry of the group breakdown is the 4.2 summary of the
sub-sequence of trades carrying that instrument, its count is that
partition's size, and its winRate is `100 × #(pnl > 0) / count` with
strictly-positive PnL as the win predicate. -/
theorem groupBreakdown_partition_winRate (ts : List Trade)
    (g : String × SpecSummary) (hg : g ∈ computeGroupBreakdown ts) :
    g.2 = specSummary (ts.filter (fun t => t.pair = g.1)) ∧
    g.2.count = (ts.filter (fun t => t.pair = g.1)).length ∧
    (g.2.count ≠ 0 → g.2.winRate =
      100 * (((ts.filter (fun t => t.pair = g.1)).filter
        (fun t => 0 < pnl t)).length : ℚ) / g.2.count) := by
  rcases List.mem_map.mp hg with ⟨k, _, rfl⟩
  refine ⟨rfl, rfl, fun hne => ?_⟩
  have hlen : (ts.filter (fun t => t.pair = k)).length ≠ 0 := hne
  simp [specSummary, hlen]

/-- C8 (witness for `groupBreakdown_partition_winRate`): the EURUSD
partition of a three-trade, two-instrument sequence. -/
theorem groupBreakdown_partition_winRate_witness :
    (specSummary (([⟨"EURUSD", "Buy", 1, 0, 2, 1⟩, ⟨"GBPUSD", "Sell", 1, 0, 2, 1⟩,
        ⟨"EURUSD", "Buy", 2, 0, 1, 1⟩] : List Trade).filter
        (fun t => t.pair = "EURUSD"))).winRate =
      100 * (((([⟨"EURUSD", "Buy", 1, 0, 2, 1⟩, ⟨"GBPUSD", "Sell", 1, 0, 2, 1⟩,
        ⟨"EURUSD", "Buy", 2, 0, 1, 1⟩] : List Trade).filter
        (fun t => t.pair = "EURUSD")).filter
        (fun t => 0 < pnl t)).length : ℚ) /
      (specSummary (([⟨"EURUSD", "Buy", 1, 0, 2, 1⟩, ⟨"GBPUSD", "Sell", 1, 0, 2, 1⟩,
        ⟨"EURUSD", "Buy", 2, 0, 1, 1⟩] : List Trade).filter
        (fun t => t.pair = "EURUSD"))).count := by
  have hg : (("EURUSD", specSummary
      (([⟨"EURUSD", "Buy", 1, 0, 2, 1⟩, ⟨"GBPUSD", "Sell", 1, 0, 2, 1⟩,
        ⟨"EURUSD", "Buy", 2, 0, 1, 1⟩] : List Trade).filter
        (fun t => t.pair = "EURUSD"))) : String × SpecSummary) ∈
      computeGroupBreakdown
        [⟨"EURUSD", "Buy", 1, 0, 2, 1⟩, ⟨"GBPUSD", "Sell", 1, 0, 2, 1⟩,
         ⟨"EURUSD", "Buy", 2, 0, 1, 1⟩] := by
    show _ ∈ List.map _ (instrumentsOf _)
    rw [show instrumentsOf
        [⟨"EURUSD", "Buy", 1, 0, 2, 1⟩, ⟨"GBPUSD", "Sell", 1, 0, 2, 1⟩,
         ⟨"EURUSD", "Buy", 2, 0, 1, 1⟩] = ["EURUSD", "GBPUSD"] from rfl]
    simp only [List.map_cons, List.map_nil]
    exact List.mem_cons_self _ _
  exact (groupBreakdown_partition_winRate _ _ hg).2.2 (by decide)
